import Mathlib

/-!
# Verification of `example.c` (UoAESRG/style)

A shallow embedding of the C translation unit `src/example.c` and the proofs of
the properties stated about it.

Modelling conventions

* Machine integers are natural numbers (or integers for `int` and `char`); the
  implicit conversion of a value to `uint8_t` / `uint16_t` is written as an
  explicit reduction modulo `2 ^ 8` / `2 ^ 16`.
* Every C function is a state transformer over `Machine`.  The machine holds the
  three file-scope objects of the translation unit (`my_shared_variable`,
  `this`, `that`) and a ghost log of the function entries executed so far.  The
  log is not a C object: it only exists so that the order and number of calls
  made by `main` can be stated.
* Integer division is guarded: `c_div` reports `Fault.divide_by_zero` when the
  divisor is zero, so that totality is a theorem and not a convention.
* `main` reads its local `b` before any assignment.  The value read is a
  parameter of the model of `main`.
-/

namespace Style

/-! ## Data model -/

/-- The size given by `#define THAT_SIZE 32`. -/
def THAT_SIZE : Nat := 32

/-- The file-scope objects of `example.c`:
`uint8_t my_shared_variable; uint16_t this[42]; uint16_t that[THAT_SIZE];`. -/
structure Globals where
  my_shared_variable : Nat
  this : Fin 42 → Nat
  that : Fin THAT_SIZE → Nat

/-- The initial value of the file-scope objects (static storage is zeroed). -/
def Globals.init : Globals :=
  { my_shared_variable := 0, this := fun _ => 0, that := fun _ => 0 }

/-- One entry of the ghost call log: which function was entered, with which
arguments. -/
inductive Call where
  | function (data1 : List Nat) (length : Nat) (data2 : List Nat)
  | ADC_read
  | ADC_calculateVoltageFromADCReading (reading : Nat)
  | UART_put_char (c : Int)
  deriving DecidableEq, Repr

/-- Run-time faults of the guarded embedding. -/
inductive Fault where
  | divide_by_zero
  deriving DecidableEq, Repr

/-- The program state: the file-scope objects and the ghost call log (oldest
entry first). -/
structure Machine where
  globals : Globals
  calls : List Call

/-- The machine at program start. -/
def Machine.init : Machine := { globals := Globals.init, calls := [] }

/-- A C function body: from a machine to a fault, or to a returned value and the
machine after the call. -/
abbrev Exec (α : Type) : Type := Machine → Except Fault (α × Machine)

/-- The value a run returned, when it did not fault. -/
def returned {α : Type} (r : Except Fault (α × Machine)) : Option α :=
  match r with
  | .ok (v, _) => some v
  | .error _ => none

/-- The file-scope objects after a run, when it did not fault. -/
def globals_after {α : Type} (r : Except Fault (α × Machine)) : Option Globals :=
  match r with
  | .ok (_, m) => some m.globals
  | .error _ => none

/-- The call log after a run, when it did not fault. -/
def calls_after {α : Type} (r : Except Fault (α × Machine)) : Option (List Call) :=
  match r with
  | .ok (_, m) => some m.calls
  | .error _ => none

/-- Entering a function appends its entry to the ghost log; nothing else of the
machine changes. -/
def enter (c : Call) (m : Machine) : Machine :=
  { m with calls := m.calls ++ [c] }

/-! ## Integer helpers -/

/-- Conversion of a non-negative value to `uint8_t`. -/
def to_uint8 (x : Nat) : Nat := x % 2 ^ 8

/-- Conversion of a non-negative value to `uint16_t`. -/
def to_uint16 (x : Nat) : Nat := x % 2 ^ 16

/-- The C operator `/` on non-negative operands, with the zero divisor made an
explicit fault. -/
def c_div (x y : Nat) : Except Fault Nat :=
  if y = 0 then .error Fault.divide_by_zero else .ok (x / y)

/-! ## The functions of `example.c` -/

/-- Source lines 11-14: `void function(uint8_t data1[], uint8_t length, uint8_t data2[])`
with an empty body.  The arrays are passed by their contents; the body stores
nothing, so nothing is handed back. -/
def function (data1 : List Nat) (length : Nat) (data2 : List Nat) : Exec Unit :=
  fun m => .ok ((), enter (Call.function data1 length data2) m)

/-- Source lines 121-123: `uint16_t ADC_read() { return 4; }`. -/
def ADC_read : Exec Nat :=
  fun m => .ok (to_uint16 4, enter Call.ADC_read m)

/-- Source lines 126-128:
`uint16_t ADC_calculateVoltageFromADCReading(uint16_t reading) { return reading * 16; }`.
The product is formed after integer promotion (exactly, in an `int` of 32 bits
or more; modulo `2 ^ 16` in `unsigned int` where `int` has 16 bits) and is then
converted to the return type `uint16_t`; both readings give
`to_uint16 (reading * 16)`. -/
def ADC_calculateVoltageFromADCReading (reading : Nat) : Exec Nat :=
  fun m => .ok (to_uint16 (reading * 16),
    enter (Call.ADC_calculateVoltageFromADCReading reading) m)

/-- Source lines 130-132: `void UART_put_char(char c) { }`. -/
def UART_put_char (c : Int) : Exec Unit :=
  fun m => .ok ((), enter (Call.UART_put_char c) m)

/-- The enumeration declared inside `main` (source lines 89-92). -/
inductive CaptureStateE where
  | captureCurrent
  | captureVoltage
  deriving DecidableEq, Repr

/-- The integer value of an enumerator: `captureCurrent = 0`, `captureVoltage = 1`. -/
def CaptureStateE.toInt : CaptureStateE → Int
  | .captureCurrent => 0
  | .captureVoltage => 1

/-- The `switch (state)` of source lines 97-102: both cases only `break`, and a
value matching no case skips the body. -/
def main_switch (state : Int) : Unit :=
  if state = CaptureStateE.captureVoltage.toInt then ()
  else if state = CaptureStateE.captureCurrent.toInt then ()
  else ()

/-- The locals of `main` as they stand at `return 0;`. -/
structure MainLocals where
  a : Nat
  b : Nat
  state : Int
  adc_val : Nat
  voltage : Nat
  char_out : Nat
  deriving DecidableEq, Repr

/-- The statement `a = b / 127;` of source line 79: the quotient (guarded),
converted to the `uint8_t` it is stored in. -/
def main_a (b : Nat) : Except Fault Nat :=
  (c_div b 127).map to_uint8

/-- Source lines 67-118, the body of `main`, returning the exit code together
with the locals at the `return`.  `b` is the value read from the unassigned
local `b`. -/
def main_body (_argc : Int) (_argv : List String) (b : Nat) : Exec (Int × MainLocals) :=
  fun m0 => do
    let a ← main_a b
    let state : Int := CaptureStateE.captureCurrent.toInt
    let () := main_switch state
    let (r, m1) ← ADC_read m0
    let adc_val := to_uint16 r
    let (v, m2) ← ADC_calculateVoltageFromADCReading adc_val m1
    let voltage := to_uint16 v
    let char_out := to_uint8 97
    let ((), m3) ← UART_put_char (Int.ofNat char_out) m2
    pure ((0, { a := a, b := b, state := state, adc_val := adc_val,
                voltage := voltage, char_out := char_out }), m3)

/-- Source lines 67-118: `int main(int argc, char **argv)`. -/
def main (argc : Int) (argv : List String) (b : Nat) : Exec Int :=
  fun m => (main_body argc argv b m).map (fun r => (r.1.1, r.2))

/-! ## Evaluation lemmas -/

theorem function_eq (data1 : List Nat) (length : Nat) (data2 : List Nat) (m : Machine) :
    function data1 length data2 m
      = .ok ((), { globals := m.globals,
                   calls := m.calls ++ [Call.function data1 length data2] }) := rfl

theorem ADC_read_eq (m : Machine) :
    ADC_read m = .ok (4, { globals := m.globals, calls := m.calls ++ [Call.ADC_read] }) := rfl

theorem ADC_calculateVoltageFromADCReading_eq (reading : Nat) (m : Machine) :
    ADC_calculateVoltageFromADCReading reading m
      = .ok ((reading * 16) % 65536,
             { globals := m.globals,
               calls := m.calls ++ [Call.ADC_calculateVoltageFromADCReading reading] }) := rfl

theorem UART_put_char_eq (c : Int) (m : Machine) :
    UART_put_char c m
      = .ok ((), { globals := m.globals, calls := m.calls ++ [Call.UART_put_char c] }) := rfl

theorem c_div_127 (b : Nat) : c_div b 127 = .ok (b / 127) := rfl

theorem main_a_eq (b : Nat) : main_a b = .ok ((b / 127) % 256) := rfl

theorem main_body_eq (argc : Int) (argv : List String) (b : Nat) (m : Machine) :
    main_body argc argv b m
      = .ok ((0, { a := (b / 127) % 256, b := b, state := 0, adc_val := 4,
                   voltage := 64, char_out := 97 }),
             { globals := m.globals,
               calls := m.calls ++ [Call.ADC_read,
                                    Call.ADC_calculateVoltageFromADCReading 4,
                                    Call.UART_put_char 97] }) := by
  simp [main_body, main_a_eq, ADC_read_eq, ADC_calculateVoltageFromADCReading_eq,
    UART_put_char_eq, to_uint16, to_uint8, CaptureStateE.toInt, bind, Except.bind, pure,
    Except.pure]

theorem main_eq (argc : Int) (argv : List String) (b : Nat) (m : Machine) :
    main argc argv b m
      = .ok (0, { globals := m.globals,
                  calls := m.calls ++ [Call.ADC_read,
                                       Call.ADC_calculateVoltageFromADCReading 4,
                                       Call.UART_put_char 97] }) := by
  simp [main, main_body_eq, Except.map]

/-! ## The claims -/

/-- C1: for every 16-bit unsigned reading `r` (`r ≤ 65535`), in every machine,
`ADC_calculateVoltageFromADCReading r` returns `(r * 16) % 65536`, a value that
fits a `uint16_t`; in particular the reading 4 gives 64. -/
theorem C1_voltage_is_product_mod_65536 (r : Nat) (_hr : r ≤ 65535) (m : Machine) :
    returned (ADC_calculateVoltageFromADCReading r m) = some ((r * 16) % 65536)
    ∧ (r * 16) % 65536 ≤ 65535
    ∧ returned (ADC_calculateVoltageFromADCReading 4 m) = some 64 := by
  refine ⟨?_, ?_, ?_⟩
  · rw [ADC_calculateVoltageFromADCReading_eq]; rfl
  · omega
  · rw [ADC_calculateVoltageFromADCReading_eq]; rfl

/-- Witness for C1 at the reading 4 in the initial machine. -/
theorem C1_voltage_is_product_mod_65536_witness :
    (4 : Nat) ≤ 65535
    ∧ returned (ADC_calculateVoltageFromADCReading 4 Machine.init) = some ((4 * 16) % 65536)
    ∧ returned (ADC_calculateVoltageFromADCReading 4 Machine.init) = some 64 :=
  ⟨by decide,
   (C1_voltage_is_product_mod_65536 4 (by decide) Machine.init).1,
   (C1_voltage_is_product_mod_65536 4 (by decide) Machine.init).2.2⟩

/-- C2: `ADC_read` takes no input and returns 4 in every machine (so any two
calls, in any two states, return the same value), and the file-scope objects
`my_shared_variable`, `this` and `that` are the same after the call as before. -/
theorem C2_ADC_read_returns_four (m m2 : Machine) :
    returned (ADC_read m) = some 4
    ∧ returned (ADC_read m) = returned (ADC_read m2)
    ∧ globals_after (ADC_read m) = some m.globals
    ∧ (∃ m1, ADC_read m = .ok (4, m1)
        ∧ m1.globals.my_shared_variable = m.globals.my_shared_variable
        ∧ m1.globals.this = m.globals.this
        ∧ m1.globals.that = m.globals.that
        ∧ returned (ADC_read m1) = some 4) := by
  refine ⟨rfl, rfl, rfl, ?_⟩
  exact ⟨_, ADC_read_eq m, rfl, rfl, rfl, rfl⟩

/-- C3: `main` returns exit code 0 for every `argc`, every `argv`, every value
read from its unassigned local `b` and every machine; two runs with different
arguments return the same code. -/
theorem C3_main_returns_zero (argc : Int) (argv : List String) (b : Nat) (m : Machine)
    (argc2 : Int) (argv2 : List String) (b2 : Nat) (m2 : Machine) :
    returned (main argc argv b m) = some 0
    ∧ returned (main argc argv b m) = returned (main argc2 argv2 b2 m2) := by
  simp [main_eq, returned]

/-- C4: for every character value `c` and every machine, `UART_put_char c`
completes without a fault, returns nothing (the unit value), and leaves the
file-scope objects `my_shared_variable`, `this` and `that` as they were. -/
theorem C4_UART_put_char_no_effect (c : Int) (m : Machine) :
    returned (UART_put_char c m) = some ()
    ∧ globals_after (UART_put_char c m) = some m.globals
    ∧ (∃ m1, UART_put_char c m = .ok ((), m1)
        ∧ m1.globals = m.globals
        ∧ m1.globals.my_shared_variable = m.globals.my_shared_variable
        ∧ m1.globals.this = m.globals.this
        ∧ m1.globals.that = m.globals.that) := by
  refine ⟨rfl, rfl, ?_⟩
  exact ⟨_, UART_put_char_eq c m, rfl, rfl, rfl, rfl⟩

/-- C5: in the guarded embedding every operation is total and reaches no fault:
for every input and every machine, `ADC_read`,
`ADC_calculateVoltageFromADCReading`, `UART_put_char` and `main` end in `ok`, and
the division `b / 127` of `main` is never a division by zero, for every `b`. -/
theorem C5_no_operation_faults (m : Machine) (reading : Nat) (c : Int)
    (argc : Int) (argv : List String) (b : Nat) :
    (∃ v m1, ADC_read m = .ok (v, m1))
    ∧ (∃ v m1, ADC_calculateVoltageFromADCReading reading m = .ok (v, m1))
    ∧ (∃ m1, UART_put_char c m = .ok ((), m1))
    ∧ (∃ v m1, main argc argv b m = .ok (v, m1))
    ∧ (∀ e, ADC_read m ≠ .error e)
    ∧ (∀ e, ADC_calculateVoltageFromADCReading reading m ≠ .error e)
    ∧ (∀ e, UART_put_char c m ≠ .error e)
    ∧ (∀ e, main argc argv b m ≠ .error e)
    ∧ c_div b 127 = .ok (b / 127)
    ∧ c_div b 127 ≠ .error Fault.divide_by_zero
    ∧ (∀ e, main_a b ≠ .error e) := by
  refine ⟨⟨_, _, ADC_read_eq m⟩, ⟨_, _, ADC_calculateVoltageFromADCReading_eq reading m⟩,
    ⟨_, UART_put_char_eq c m⟩, ⟨_, _, main_eq argc argv b m⟩, ?_, ?_, ?_, ?_, rfl, ?_, ?_⟩
  · intro e h; rw [ADC_read_eq] at h; cases h
  · intro e h; rw [ADC_calculateVoltageFromADCReading_eq] at h; cases h
  · intro e h; rw [UART_put_char_eq] at h; cases h
  · intro e h; rw [main_eq] at h; cases h
  · intro h; rw [c_div_127] at h; cases h
  · intro e h; rw [main_a_eq] at h; cases h

/-- The quotient stored in `a` for an 8-bit `b`: it is `b / 127`, at most 2, and
it is 0 or 1 exactly when `b ≤ 253`. -/
theorem main_a_range (b : Nat) (hb : b ≤ 255) :
    main_a b = .ok (b / 127) ∧ b / 127 ≤ 2 ∧ (b / 127 ≤ 1 ↔ b ≤ 253) := by
  rw [main_a_eq]
  have h : b / 127 ≤ 2 := by omega
  refine ⟨?_, h, by omega⟩
  rw [Nat.mod_eq_of_lt (by omega)]

/-- C6 (the code departs from the claim): with `b = 254` or `b = 255`, both
8-bit values, the division `b / 127` of `main` gives 2, neither 0 nor 1, and 2 is
the value `main` holds in `a` at its `return`. -/
theorem C6_division_reaches_two :
    main_a 254 = .ok 2
    ∧ main_a 255 = .ok 2
    ∧ (returned (main_body 1 [] 254 Machine.init)).map (fun r => r.2.a) = some 2
    ∧ ¬ (∀ b : Nat, b ≤ 255 → main_a b = .ok 0 ∨ main_a b = .ok 1) := by
  refine ⟨rfl, rfl, ?_, ?_⟩
  · rw [main_body_eq]; rfl
  · intro h
    have h254 := h 254 (by decide)
    rw [main_a_eq] at h254
    rcases h254 with h0 | h1
    · injection h0 with h0; revert h0; decide
    · injection h1 with h1; revert h1; decide

/-- C7: for every 16-bit reading `r`, `ADC_calculateVoltageFromADCReading r`
returns the exact product `r * 16` if and only if `r ≤ 4095`; the reading 4095
still gives the product 65520, the reading 4096 gives 0, and for every
`r ≥ 4096` the returned value is strictly below `r * 16`. -/
theorem C7_wraparound_starts_at_4096 (r : Nat) (_hr : r ≤ 65535) (m : Machine) :
    (returned (ADC_calculateVoltageFromADCReading r m) = some (r * 16) ↔ r ≤ 4095)
    ∧ returned (ADC_calculateVoltageFromADCReading 4095 m) = some 65520
    ∧ returned (ADC_calculateVoltageFromADCReading 4096 m) = some 0
    ∧ (4096 ≤ r →
        ∃ v, returned (ADC_calculateVoltageFromADCReading r m) = some v ∧ v < r * 16) := by
  refine ⟨?_, rfl, rfl, ?_⟩
  · rw [ADC_calculateVoltageFromADCReading_eq]
    constructor
    · intro h
      have h2 : (r * 16) % 65536 = r * 16 := Option.some.inj h
      omega
    · intro h
      show some ((r * 16) % 65536) = some (r * 16)
      rw [Nat.mod_eq_of_lt (by omega)]
  · intro h
    rw [ADC_calculateVoltageFromADCReading_eq]
    exact ⟨_, rfl, by omega⟩

/-- Witness for C7 at the first wrapping reading, 4096, in the initial machine. -/
theorem C7_wraparound_starts_at_4096_witness :
    (4096 : Nat) ≤ 65535
    ∧ ¬ returned (ADC_calculateVoltageFromADCReading 4096 Machine.init) = some (4096 * 16)
    ∧ returned (ADC_calculateVoltageFromADCReading 4096 Machine.init) = some 0
    ∧ (∃ v, returned (ADC_calculateVoltageFromADCReading 4096 Machine.init) = some v
          ∧ v < 4096 * 16) :=
  ⟨by decide,
   fun h => absurd
     ((C7_wraparound_starts_at_4096 4096 (by decide) Machine.init).1.mp h) (by decide),
   (C7_wraparound_starts_at_4096 4096 (by decide) Machine.init).2.2.1,
   (C7_wraparound_starts_at_4096 4096 (by decide) Machine.init).2.2.2 (by decide)⟩

/-- C8: for every `argc`, `argv`, value of `b` and machine, `main` adds to the
call log exactly three entries, in this order: one `ADC_read`, one
`ADC_calculateVoltageFromADCReading` whose argument is the value `ADC_read`
returned, one `UART_put_char`; at the `return`, `adc_val` is 4, `voltage` is
64 = 4 * 16 (no wraparound) and the character passed to `UART_put_char` is 97,
the code of the letter a. -/
theorem C8_main_call_sequence (argc : Int) (argv : List String) (b : Nat) (m : Machine) :
    ∃ L : MainLocals,
      returned (main_body argc argv b m) = some (0, L)
      ∧ returned (ADC_read m) = some L.adc_val
      ∧ L.adc_val = 4
      ∧ (∀ m1, returned (ADC_calculateVoltageFromADCReading L.adc_val m1) = some L.voltage)
      ∧ L.voltage = 64
      ∧ L.voltage = L.adc_val * 16
      ∧ L.char_out = 97
      ∧ L.char_out = ('a').toNat
      ∧ calls_after (main argc argv b m)
          = some (m.calls ++ [Call.ADC_read,
                              Call.ADC_calculateVoltageFromADCReading L.adc_val,
                              Call.UART_put_char (Int.ofNat L.char_out)])
      ∧ calls_after (main argc argv b m)
          = some (m.calls ++ [Call.ADC_read,
                              Call.ADC_calculateVoltageFromADCReading 4,
                              Call.UART_put_char 97]) := by
  refine ⟨{ a := (b / 127) % 256, b := b, state := 0, adc_val := 4, voltage := 64,
             char_out := 97 },
    by rw [main_body_eq]; rfl, rfl, rfl, fun _ => rfl, rfl, rfl, rfl, rfl, ?_, ?_⟩
  · rw [main_eq]; rfl
  · rw [main_eq]; rfl

/-- C9: `my_shared_variable` and the arrays `this` and `that` are neither
written nor read: for every machine and every argument, the file-scope objects
after `main`, `ADC_read`, `ADC_calculateVoltageFromADCReading`, `UART_put_char`
and `function` are those before, and replacing the file-scope objects by any
others `g` changes neither the value returned nor the calls made. -/
theorem C9_globals_untouched (m : Machine) (g : Globals)
    (argc : Int) (argv : List String) (b : Nat) (reading : Nat) (c : Int)
    (data1 : List Nat) (length : Nat) (data2 : List Nat) :
    (globals_after (main argc argv b m) = some m.globals
      ∧ globals_after (ADC_read m) = some m.globals
      ∧ globals_after (ADC_calculateVoltageFromADCReading reading m) = some m.globals
      ∧ globals_after (UART_put_char c m) = some m.globals
      ∧ globals_after (function data1 length data2 m) = some m.globals)
    ∧ (returned (main argc argv b { m with globals := g }) = returned (main argc argv b m)
      ∧ returned (ADC_read { m with globals := g }) = returned (ADC_read m)
      ∧ returned (ADC_calculateVoltageFromADCReading reading { m with globals := g })
          = returned (ADC_calculateVoltageFromADCReading reading m)
      ∧ returned (UART_put_char c { m with globals := g }) = returned (UART_put_char c m)
      ∧ returned (function data1 length data2 { m with globals := g })
          = returned (function data1 length data2 m))
    ∧ (calls_after (main argc argv b { m with globals := g })
          = calls_after (main argc argv b m)
      ∧ calls_after (ADC_read { m with globals := g }) = calls_after (ADC_read m)
      ∧ calls_after (ADC_calculateVoltageFromADCReading reading { m with globals := g })
          = calls_after (ADC_calculateVoltageFromADCReading reading m)
      ∧ calls_after (UART_put_char c { m with globals := g })
          = calls_after (UART_put_char c m)
      ∧ calls_after (function data1 length data2 { m with globals := g })
          = calls_after (function data1 length data2 m)) := by
  simp only [main_eq]
  exact ⟨⟨rfl, rfl, rfl, rfl, rfl⟩, ⟨rfl, rfl, rfl, rfl, rfl⟩, ⟨rfl, rfl, rfl, rfl, rfl⟩⟩

/-- C10: for every 16-bit reading `r`, `ADC_calculateVoltageFromADCReading r`
returns `16 * (r % 4096)`, a multiple of 16; when `r + 4096` is also a 16-bit
value it gives the same voltage as `r`, so two different 16-bit readings share a
voltage and the conversion is not injective on the 16-bit range. -/
theorem C10_top_four_bits_discarded (r : Nat) (_hr : r ≤ 65535) (m : Machine) :
    returned (ADC_calculateVoltageFromADCReading r m) = some (16 * (r % 4096))
    ∧ (∃ v, returned (ADC_calculateVoltageFromADCReading r m) = some v ∧ 16 ∣ v)
    ∧ (r + 4096 ≤ 65535 →
        returned (ADC_calculateVoltageFromADCReading (r + 4096) m)
          = returned (ADC_calculateVoltageFromADCReading r m))
    ∧ (∃ r1 r2 : Nat, r1 ≤ 65535 ∧ r2 ≤ 65535 ∧ r1 ≠ r2
        ∧ returned (ADC_calculateVoltageFromADCReading r1 m)
            = returned (ADC_calculateVoltageFromADCReading r2 m)) := by
  simp only [ADC_calculateVoltageFromADCReading_eq, returned]
  have key : (r * 16) % 65536 = 16 * (r % 4096) := by omega
  refine ⟨by rw [key], ⟨_, rfl, ?_⟩, ?_, ⟨0, 4096, by decide, by decide, by decide, rfl⟩⟩
  · rw [key]; exact Dvd.intro _ rfl
  · intro _
    have h2 : ((r + 4096) * 16) % 65536 = (r * 16) % 65536 := by omega
    rw [h2]

/-- Witness for C10 at the reading 5 (and 5 + 4096 = 4101) in the initial machine. -/
theorem C10_top_four_bits_discarded_witness :
    (5 : Nat) ≤ 65535 ∧ (5 : Nat) + 4096 ≤ 65535
    ∧ returned (ADC_calculateVoltageFromADCReading 5 Machine.init) = some (16 * (5 % 4096))
    ∧ returned (ADC_calculateVoltageFromADCReading (5 + 4096) Machine.init)
        = returned (ADC_calculateVoltageFromADCReading 5 Machine.init) :=
  ⟨by decide, by decide,
   (C10_top_four_bits_discarded 5 (by decide) Machine.init).1,
   (C10_top_four_bits_discarded 5 (by decide) Machine.init).2.2.1 (by decide)⟩

end Style
